import Mathlib

/-!
Verification of the planetary repository's icosphere subdivision engine and
renderer synchronization layer.

The development shallowly embeds the relevant Rust sources:

* `src/game/src/structures/ico.rs` — `IcoFace`, `Ico::base`, `Ico::subdivide`,
  `Ico::divs`, `Ico::face`.  Machine integers are embedded as `Nat`; the code's
  values stay below `2^16` (corner labels, `u16`) and `2^32` (face indices,
  `u32`) at every depth reachable without overflow, and the one place where the
  `u16` range is actually exceeded is made explicit and proved below
  (`midpoint_index_init`).  Float-valued fields (`vertices`, `normal`,
  `tex_coords`) and the RNG-assigned `tex_index` are omitted: no claim refers
  to them and they influence neither indices nor adjacency.
* `src/engine/src/graphics/common.rs` — `ItemBuffer::update` / `ItemBuffer::id`
  (buffer hysteresis and generation counter), `Renderer::new` /
  `Renderer::update` / `Renderer::invalid` (pipeline/bundle cache), and
  `ItemBuffer::<u32>::mapped_read` (pick readback decoding).
-/

namespace Planetary

/-! ## Mesh data model (src/game/src/structures/ico.rs) -/

/-- Embedding of `IcoFace`.  `index` is the `NonZeroU32` face index (value ≥ 1
in every constructed mesh), `i0 i1 i2` the `indices: [u16; 3]` corner labels,
`s0 s1 s2` the `siblings: [Option<NonZeroU32>; 3]` slots.  The three float
fields and `tex_index` are omitted (see module docstring). -/
structure IcoFace where
  index : Nat
  i0 : Nat
  i1 : Nat
  i2 : Nat
  s0 : Option Nat
  s1 : Option Nat
  s2 : Option Nat
deriving Repr, DecidableEq

/-- Embedding of `Ico { sub: u32, faces: Vec<IcoFace> }`. -/
structure Ico where
  sub : Nat
  faces : List IcoFace
deriving Repr

/-- The `BTreeMap` keyed by directed corner-label pairs, embedded as an
association list in which `insert` prepends; `emLookup` returns the most
recently inserted binding, which observably coincides with the overwriting
`BTreeMap::insert` followed by `get`. -/
def EdgeMap := List ((Nat × Nat) × Nat)

def emLookup : EdgeMap → Nat → Nat → Option Nat
  | [], _, _ => none
  | ((a, b), v) :: rest, x, y =>
    match a == x && b == y with
    | true => some v
    | false => emLookup rest x y

def emInsert (m : EdgeMap) (k : Nat × Nat) (v : Nat) : EdgeMap := (k, v) :: m

/-- The 20 hand-specified corner-index triples of `Ico::base_faces`. -/
def base_faces : List (Nat × Nat × Nat) :=
  [(0, 11, 5), (0, 5, 1), (0, 1, 7), (0, 7, 10), (0, 10, 11),
   (1, 5, 9), (5, 11, 4), (11, 10, 2), (10, 7, 6), (7, 1, 8),
   (3, 9, 4), (3, 4, 2), (3, 2, 6), (3, 6, 8), (3, 8, 9),
   (4, 9, 5), (2, 4, 11), (6, 2, 10), (8, 6, 7), (9, 8, 1)]

/-- First loop of `Ico::base`: for face number `k` (1-based index `k + 1`) the
three directed edges `(i0,i1)`, `(i1,i2)`, `(i2,i0)` are inserted into the
edge map with the face index as value. -/
def baseEdges : EdgeMap :=
  base_faces.enum.foldl
    (fun m p =>
      let idx := p.1 + 1
      let i0 := p.2.1
      let i1 := p.2.2.1
      let i2 := p.2.2.2
      emInsert (emInsert (emInsert m (i0, i1) idx) (i1, i2) idx) (i2, i0) idx)
    []

/-- The face records pushed by the first loop of `Ico::base`, before the
sibling-resolution pass (`siblings: [None; 3]`). -/
def basePre : List IcoFace :=
  base_faces.enum.map fun p =>
    { index := p.1 + 1, i0 := p.2.1, i1 := p.2.2.1, i2 := p.2.2.2,
      s0 := none, s1 := none, s2 := none }

/-- Second loop of `Ico::base`: siblings are resolved by looking up the
reverse-directed edges `(i1,i0)`, `(i2,i1)`, `(i0,i2)`. -/
def resolveBase (edges : EdgeMap) (f : IcoFace) : IcoFace :=
  { f with s0 := emLookup edges f.i1 f.i0,
           s1 := emLookup edges f.i2 f.i1,
           s2 := emLookup edges f.i0 f.i2 }

/-- Embedding of `Ico::base`. -/
def Ico.base : Ico :=
  { sub := 0, faces := basePre.map (resolveBase baseEdges) }

/-- The running state of the loop in `Ico::subdivide`: the emitted child
faces, the midpoint-label counter `index_count`, the midpoint-deduplication
map `indices` (keyed by order-independent `[max, min]` pairs) and the new
directed-edge map `edges`. -/
structure SubState where
  vertices : List IcoFace
  index_count : Nat
  indices : EdgeMap
  edges : EdgeMap

/-- Embedding of `indices.entry(key).or_insert_with(|| { index_count += 1;
index_count })`: returns the value, the possibly-extended map, and the
possibly-incremented counter. -/
def entryOrInsert (m : EdgeMap) (k : Nat × Nat) (c : Nat) : Nat × EdgeMap × Nat :=
  match emLookup m k.1 k.2 with
  | some v => (v, m, c)
  | none => (c + 1, emInsert m k (c + 1), c + 1)

/-- The initial value of `index_count` in `Ico::subdivide`:
`(12 * 2u16.pow(self.sub)) - 1`.  In the source this is `u16` arithmetic; the
multiplication exceeds `u16::MAX` for `sub ≥ 13` (proved below). -/
def midpoint_index_init (sub : Nat) : Nat := 12 * 2 ^ sub - 1

/-- Body of the `for f in self.faces.drain(..)` loop of `Ico::subdivide`:
allocate or reuse the three edge-midpoint labels `j0 j1 j2`, insert the twelve
directed child edges, and append the four child faces (indices `4n-3`, `4n-2`,
`4n-1`, `4n` for parent index `n`). -/
def subStep (st : SubState) (f : IcoFace) : SubState :=
  let n := f.index
  let r0 := entryOrInsert st.indices (Nat.max f.i0 f.i1, Nat.min f.i0 f.i1) st.index_count
  let j0 := r0.1
  let r1 := entryOrInsert r0.2.1 (Nat.max f.i1 f.i2, Nat.min f.i1 f.i2) r0.2.2
  let j1 := r1.1
  let r2 := entryOrInsert r1.2.1 (Nat.max f.i2 f.i0, Nat.min f.i2 f.i0) r1.2.2
  let j2 := r2.1
  let e := st.edges
  let e := emInsert e (j2, f.i0) (n * 4 - 3)
  let e := emInsert e (f.i0, j0) (n * 4 - 3)
  let e := emInsert e (j0, j2) (n * 4 - 3)
  let e := emInsert e (j1, f.i2) (n * 4 - 2)
  let e := emInsert e (f.i2, j2) (n * 4 - 2)
  let e := emInsert e (j2, j1) (n * 4 - 2)
  let e := emInsert e (j0, f.i1) (n * 4 - 1)
  let e := emInsert e (f.i1, j1) (n * 4 - 1)
  let e := emInsert e (j1, j0) (n * 4 - 1)
  let e := emInsert e (j0, j1) (n * 4)
  let e := emInsert e (j1, j2) (n * 4)
  let e := emInsert e (j2, j0) (n * 4)
  { vertices := st.vertices ++
      [ { index := n * 4 - 3, i0 := j2, i1 := f.i0, i2 := j0,
          s0 := none, s1 := none, s2 := none },
        { index := n * 4 - 2, i0 := j1, i1 := f.i2, i2 := j2,
          s0 := none, s1 := none, s2 := none },
        { index := n * 4 - 1, i0 := j0, i1 := f.i1, i2 := j1,
          s0 := none, s1 := none, s2 := none },
        { index := n * 4, i0 := j0, i1 := j1, i2 := j2,
          s0 := none, s1 := none, s2 := none } ],
    index_count := r2.2.2, indices := r2.2.1, edges := e }

/-- Embedding of `NonZeroU32::new`: `None` exactly on `0`. -/
def nonZeroNew (v : Nat) : Option Nat := if v = 0 then none else some v

/-- Final loop of `Ico::subdivide`: siblings of each child face are resolved
from the new edge map by reverse-directed lookup, through
`NonZeroU32::new(*v)` (`edges.get(..).map(|v| NonZeroU32::new(*v)).flatten()`). -/
def resolveSub (edges : EdgeMap) (f : IcoFace) : IcoFace :=
  { f with s0 := (emLookup edges f.i1 f.i0).bind nonZeroNew,
           s1 := (emLookup edges f.i2 f.i1).bind nonZeroNew,
           s2 := (emLookup edges f.i0 f.i2).bind nonZeroNew }

/-- Embedding of `Ico::subdivide` (one level). -/
def Ico.subdivide (m : Ico) : Ico :=
  let st := m.faces.foldl subStep ⟨[], midpoint_index_init m.sub, [], []⟩
  { sub := m.sub + 1, faces := st.vertices.map (resolveSub st.edges) }

/-- Embedding of `Ico::divs`: the base icosahedron followed by `d`
subdivisions. -/
def Ico.divs : Nat → Ico
  | 0 => Ico.base
  | d + 1 => (Ico.divs d).subdivide

/-- Embedding of `Ico::face`: index `0` is the reserved sentinel; otherwise
the face is fetched positionally at `index - 1` (`Vec::get`, total). -/
def Ico.face (m : Ico) (index : Nat) : Option IcoFace :=
  if index = 0 then none else m.faces[index - 1]?

/-! Specification-side predicates for the adjacency claims. -/

/-- The three sibling slots of a face, in slot order. -/
def IcoFace.siblingList (f : IcoFace) : List (Option Nat) := [f.s0, f.s1, f.s2]

/-- Number of sibling slots of face number `b` (positional lookup) that hold
face index `a`. -/
def backRefCount (m : Ico) (b a : Nat) : Nat :=
  match m.face b with
  | none => 0
  | some fb => (fb.siblingList.filter (fun s => s == some a)).length

/-- One sibling slot of face `a` is acceptable when it is non-`None` and the
referenced face points back at `a` in exactly one of its own slots. -/
def sibOK (m : Ico) (a : Nat) : Option Nat → Bool
  | none => false
  | some b => backRefCount m b a == 1

/-- Every face of the mesh has its three sibling slots filled. -/
def icoAllSome (m : Ico) : Bool :=
  m.faces.all fun f => f.s0.isSome && f.s1.isSome && f.s2.isSome

/-- The sibling relation of the mesh is symmetric with multiplicity one. -/
def icoAdjSymmetric (m : Ico) : Bool :=
  m.faces.all fun f => f.siblingList.all (sibOK m f.index)

/-! ## Vertex buffer (src/engine/src/graphics/common.rs, `ItemBuffer`) -/

/-- State of an `ItemBuffer<T>` as far as its update protocol is concerned.
`num_items` and `generation` are the structure's own fields; `capacity` is the
item size of the `wgpu::Buffer` currently held (the `data.len()` passed to
`create_buffer_size` at the latest reallocation), which the Rust value carries
implicitly inside the opaque buffer object. -/
structure ItemBuffer where
  capacity : Nat
  num_items : Nat
  generation : Nat
deriving Repr, DecidableEq

/-- Embedding of `ItemBuffer::update`: a new buffer sized exactly to
`data.len()` is created when `data.len() > num_items` or
`data.len() < num_items / 2`, bumping `generation`; in both branches
`num_items` is then set to `data.len()`. -/
def ItemBuffer.update (s : ItemBuffer) (len : Nat) : ItemBuffer :=
  if len > s.num_items ∨ len < s.num_items / 2 then
    { capacity := len, num_items := len, generation := s.generation + 1 }
  else
    { s with num_items := len }

/-- Embedding of `ItemBuffer::id`: the generation counter. -/
def ItemBuffer.id (s : ItemBuffer) : Nat := s.generation

/-- The reallocation condition exactly as claim C4 states it: against the
buffer's *capacity* (allocation size), not against the last logical length. -/
def capacityReallocCond (capacity len : Nat) : Prop :=
  len > capacity ∨ len < capacity / 2

instance (c l : Nat) : Decidable (capacityReallocCond c l) := by
  unfold capacityReallocCond; infer_instance

/-- Reallocation observations along a sequence of updates: `true` at each
position where that update bumps the generation counter. -/
def reallocFlags (s : ItemBuffer) : List Nat → List Bool
  | [] => []
  | l :: ls => ((s.update l).generation != s.generation) :: reallocFlags (s.update l) ls

/-! ## Renderer cache (src/engine/src/graphics/common.rs, `Renderer<P>`) -/

/-- Embedding of `RendererInvalid`. -/
inductive RendererInvalid
  | Pipeline
  | Bundle

/-- State of a `Renderer<P>`.  The opaque GPU objects are abstracted by
identities: `build_pipeline` returns a fresh pipeline object, modelled by a
fresh identity drawn from the ghost call counter `pipeline_builds`; a bundle
records the pipeline identity and the data id it was built from
(`build_bundle(device, &self.pipeline, format, samples, &self.data)`).
`pipeline_valid`, `bundle_valid` and `id` are the structure's own fields
(`id` is the last-observed `data.id()`, initialized to `Default::default()`,
i.e. `0`).  `bundle_builds` counts `build_bundle` calls. -/
structure Renderer where
  pipeline : Nat
  bundle : Nat × Nat
  pipeline_valid : Bool
  bundle_valid : Bool
  id : Nat
  pipeline_builds : Nat
  bundle_builds : Nat
deriving Repr, DecidableEq

/-- Embedding of `Renderer::new`: builds the pipeline, builds the bundle
against it and the supplied data (current data id `d0`), marks both valid and
sets the last-seen id to the default `0`. -/
def Renderer.new (d0 : Nat) : Renderer :=
  { pipeline := 1, bundle := (1, d0), pipeline_valid := true, bundle_valid := true,
    id := 0, pipeline_builds := 1, bundle_builds := 1 }

/-- Embedding of `Renderer::update(device, samples)` where `d = self.data.id()`:
an id change invalidates the bundle and records the id; an invalid pipeline is
rebuilt first and forces the bundle invalid; an invalid bundle is rebuilt from
the current pipeline and data. -/
def Renderer.update (r : Renderer) (d : Nat) : Renderer :=
  let r1 := if d ≠ r.id then { r with id := d, bundle_valid := false } else r
  let r2 :=
    if r1.pipeline_valid = false then
      { r1 with pipeline := r1.pipeline_builds + 1, pipeline_builds := r1.pipeline_builds + 1,
                pipeline_valid := true, bundle_valid := false }
    else r1
  if r2.bundle_valid = false then
    { r2 with bundle := (r2.pipeline, d), bundle_builds := r2.bundle_builds + 1,
              bundle_valid := true }
  else r2

/-- Embedding of `Renderer::invalid`. -/
def Renderer.invalid (r : Renderer) : RendererInvalid → Renderer
  | RendererInvalid.Pipeline => { r with pipeline_valid := false }
  | RendererInvalid.Bundle => { r with bundle_valid := false }

/-! ## Pick readback (src/engine/src/graphics/common.rs, `mapped_read`) -/

/-- Little-endian decoding of four bytes into a `u32`
(`u32::from_le_bytes`). -/
def u32_from_le_bytes (b0 b1 b2 b3 : Nat) : Nat :=
  b0 + 256 * (b1 + 256 * (b2 + 256 * b3))

/-- Embedding of `ItemBuffer::<u32>::mapped_read(device, offset)`.  `buf` is
the byte content of the mapped selection buffer.  The code computes
`bits = (offset % 2) * 4`, rebases `offset = (offset / 2) * 4`, maps the
8-byte slice `offset..offset + 8` and decodes `data[bits..bits + 4]` as a
little-endian `u32`; byte `k` of that slice is `buf (off + k)`. -/
def mapped_read (buf : Nat → Nat) (offset : Nat) : Nat :=
  let bits := (offset % 2) * 4
  let off := (offset / 2) * 4
  u32_from_le_bytes (buf (off + bits)) (buf (off + bits + 1))
    (buf (off + bits + 2)) (buf (off + bits + 3))

/-- Specification-side reading: the little-endian `u32` stored at a given
byte offset of the selection buffer. -/
def word_at (buf : Nat → Nat) (byteOff : Nat) : Nat :=
  u32_from_le_bytes (buf byteOff) (buf (byteOff + 1)) (buf (byteOff + 2)) (buf (byteOff + 3))

/-! ## Theorems -/

/-- The `sub` field counts the performed subdivisions. -/
theorem divs_sub (d : Nat) : (Ico.divs d).sub = d := by
  induction d with
  | zero => rfl
  | succ n ih => simp [Ico.divs, Ico.subdivide, ih]

/-- One loop iteration of `subdivide` appends children with indices `4n-3`,
`4n-2`, `4n-1`, `4n` for parent index `n`. -/
theorem subStep_vertices_map_index (st : SubState) (f : IcoFace) :
    (subStep st f).vertices.map IcoFace.index
      = st.vertices.map IcoFace.index
        ++ [f.index * 4 - 3, f.index * 4 - 2, f.index * 4 - 1, f.index * 4] := by
  simp [subStep]

/-- The fold of `subdivide` emits, after any prefix, the four children of each
parent in parent order. -/
theorem foldl_subStep_map_index (l : List IcoFace) (st : SubState) :
    ((l.foldl subStep st).vertices).map IcoFace.index
      = st.vertices.map IcoFace.index
        ++ l.flatMap (fun f =>
            [f.index * 4 - 3, f.index * 4 - 2, f.index * 4 - 1, f.index * 4]) := by
  induction l generalizing st with
  | nil => simp
  | cons f t ih =>
    rw [List.foldl_cons, ih, subStep_vertices_map_index]
    simp

/-- Sibling resolution does not change the face index. -/
theorem resolveSub_index (e : EdgeMap) (f : IcoFace) :
    (resolveSub e f).index = f.index := rfl

/-- `subdivide` maps the parent index list to the child index list. -/
theorem subdivide_map_index (m : Ico) :
    (Ico.subdivide m).faces.map IcoFace.index
      = m.faces.flatMap (fun f =>
          [f.index * 4 - 3, f.index * 4 - 2, f.index * 4 - 1, f.index * 4]) := by
  unfold Ico.subdivide
  rw [List.map_map]
  have hcomp : IcoFace.index ∘ resolveSub (m.faces.foldl subStep
      ⟨[], midpoint_index_init m.sub, [], []⟩).edges = IcoFace.index := by
    funext f; rfl
  rw [hcomp, foldl_subStep_map_index]
  simp

/-- Flat-mapping a function of the face index factors through the index
list. -/
theorem flatMap_map_index (l : List IcoFace) :
    l.flatMap (fun f => [f.index * 4 - 3, f.index * 4 - 2, f.index * 4 - 1, f.index * 4])
      = (l.map IcoFace.index).flatMap
          (fun k => [k * 4 - 3, k * 4 - 2, k * 4 - 1, k * 4]) := by
  induction l with
  | nil => rfl
  | cons f t ih => simp [ih]

/-- Children of `[1, ..., N]` are numbered `[1, ..., 4N]`. -/
theorem flatMap_children_range' (N : Nat) :
    (List.range' 1 N).flatMap (fun n => [n * 4 - 3, n * 4 - 2, n * 4 - 1, n * 4])
      = List.range' 1 (4 * N) := by
  induction N with
  | zero => simp
  | succ n ih =>
    rw [List.range'_concat, List.flatMap_append, ih]
    have h4 : ([1 + 1 * n].flatMap fun k => [k * 4 - 3, k * 4 - 2, k * 4 - 1, k * 4])
        = List.range' (1 + 1 * (4 * n)) 4 := by
      simp [List.range']
      omega
    rw [h4, List.range'_append]
    congr 1
    ring

/-- The face indices of the depth-`d` mesh are exactly `[1, ..., 20 * 4 ^ d]`
in order. -/
theorem divs_map_index (d : Nat) :
    (Ico.divs d).faces.map IcoFace.index = List.range' 1 (20 * 4 ^ d) := by
  induction d with
  | zero => decide
  | succ n ih =>
    show ((Ico.divs n).subdivide).faces.map IcoFace.index = _
    rw [subdivide_map_index, flatMap_map_index, ih, flatMap_children_range']
    rw [show 20 * 4 ^ (n + 1) = 4 * (20 * 4 ^ n) from by ring]

/-- The face count of the depth-`d` mesh. -/
theorem divs_length (d : Nat) : (Ico.divs d).faces.length = 20 * 4 ^ d := by
  have h := congrArg List.length (divs_map_index d)
  simpa using h

/-- Claim C2: for every subdivision depth `d` in `[0, 6]`, the mesh returned
by `Ico::divs(d)` contains exactly `20 * 4 ^ d` faces. -/
theorem divs_face_count (d : Nat) (_h : d ≤ 6) :
    (Ico.divs d).faces.length = 20 * 4 ^ d :=
  divs_length d

/-- Witness for C2 at depth `2`. -/
theorem divs_face_count_witness : (Ico.divs 2).faces.length = 20 * 4 ^ 2 :=
  divs_face_count 2 (by decide)

/-- Claim C3: in every generated mesh the face indices are pairwise distinct
and form exactly the contiguous range `[1, face_count]`, and every subdivide
step gives the four children of the parent with index `n` the indices
`4n - 3`, `4n - 2`, `4n - 1`, `4n`, in order. -/
theorem face_indices_dense :
    (∀ d, (Ico.divs d).faces.map IcoFace.index
          = List.range' 1 ((Ico.divs d).faces.length)
        ∧ ((Ico.divs d).faces.map IcoFace.index).Nodup)
  ∧ ∀ m : Ico, (Ico.subdivide m).faces.map IcoFace.index
      = m.faces.flatMap (fun f =>
          [f.index * 4 - 3, f.index * 4 - 2, f.index * 4 - 1, f.index * 4]) := by
  refine ⟨fun d => ⟨?_, ?_⟩, subdivide_map_index⟩
  · rw [divs_map_index, divs_length]
  · rw [divs_map_index]
    exact List.nodup_range' 1 (20 * 4 ^ d)

/-- Claim C8: `face(mesh, 0)` is `None` for every generated mesh, and whenever
`face(mesh, i)` returns a face, its `index` field is `i`. -/
theorem face_sentinel_and_index_valid :
    (∀ d, (Ico.divs d).face 0 = none)
  ∧ ∀ d i f, (Ico.divs d).face i = some f → f.index = i := by
  constructor
  · intro d
    simp [Ico.face]
  · intro d i f h
    unfold Ico.face at h
    by_cases hi : i = 0
    · simp [hi] at h
    · rw [if_neg hi] at h
      have hm := congrArg (fun l => l[i - 1]?) (divs_map_index d)
      simp only [List.getElem?_map, h, Option.map_some'] at hm
      have hlt : i - 1 < 20 * 4 ^ d := by
        rcases List.getElem?_eq_some_iff.mp h with ⟨hl, _⟩
        have := divs_length d
        omega
      rw [List.getElem?_range' _ _ hlt] at hm
      have := Option.some.inj hm
      omega

/-- Witness for C8 at depth `0`, index `5`. -/
theorem face_sentinel_and_index_valid_witness :
    (Ico.divs 0).face 0 = none
  ∧ ({ index := 5, i0 := 0, i1 := 10, i2 := 11,
       s0 := some 4, s1 := some 8, s2 := some 1 : IcoFace }).index = 5 :=
  ⟨face_sentinel_and_index_valid.1 0,
   face_sentinel_and_index_valid.2 0 5 _ (by decide)⟩

/-- Claim C10: for every generated mesh and every index strictly greater than
the face count, `face` returns `None` (the lookup is total). -/
theorem face_out_of_range_none (d i : Nat) (h : (Ico.divs d).faces.length < i) :
    (Ico.divs d).face i = none := by
  unfold Ico.face
  rw [if_neg (by omega)]
  exact List.getElem?_eq_none (by omega)

/-- Witness for C10: depth `0`, stale index `21`. -/
theorem face_out_of_range_none_witness : (Ico.divs 0).face 21 = none :=
  face_out_of_range_none 0 21 (by decide)

/-- Claim C7 counterexample: `Ico::divs(14)` performs a subdivision whose
`self.sub` is `13`, and there the midpoint-counter initializer
`(12 * 2u16.pow(self.sub)) - 1` has mathematical value `98303`, which exceeds
`u16::MAX = 65535` — the `u16` allocation arithmetic does overflow (a panic in
debug builds, wraparound in release builds). -/
theorem divs_midpoint_overflow_cex :
    (Ico.divs 13).sub = 13 ∧ 65535 < midpoint_index_init (Ico.divs 13).sub := by
  refine ⟨divs_sub 13, ?_⟩
  rw [divs_sub]
  norm_num [midpoint_index_init]

/-- Claim C7, amended: `Ico::divs` is total in the idealized unbounded-integer
embedding, but the `u16` midpoint-counter initialization `12 * 2 ^ sub` fits
`u16::MAX` exactly for the subdivisions with `sub ≤ 12`, so depth is not
unconstrained: from depth 14 on the initializer itself overflows. -/
theorem divs_midpoint_init_u16_iff (d : Nat) :
    (Ico.divs d).sub = d ∧ (12 * 2 ^ d ≤ 65535 ↔ d ≤ 12) := by
  refine ⟨divs_sub d, ⟨?_, ?_⟩⟩
  · intro h
    by_contra hd
    push_neg at hd
    have h13 : (2 : Nat) ^ 13 ≤ 2 ^ d := Nat.pow_le_pow_right (by norm_num) (by omega)
    norm_num at h13
    omega
  · intro h
    have h12 : (2 : Nat) ^ d ≤ 2 ^ 12 := Nat.pow_le_pow_right (by norm_num) h
    norm_num at h12
    omega

/-- Claim C4 counterexample: starting from capacity 100 (allocation size 100,
logical length 100), updating to length 99 reallocates nothing (generation
stays 0, allocation still 100); the follow-up update to length 100 neither
exceeds the capacity 100 nor drops below half of it, yet the code reallocates
(generation becomes 1), because `ItemBuffer::update` compares against
`num_items` (the previous update's length, 99), not the allocation size. -/
theorem itemBuffer_capacity_hysteresis_cex :
    ((({ capacity := 100, num_items := 100, generation := 0 } : ItemBuffer).update 99).generation
        = 0)
  ∧ ((({ capacity := 100, num_items := 100, generation := 0 } : ItemBuffer).update 99).capacity
        = 100)
  ∧ ¬ capacityReallocCond
        ((({ capacity := 100, num_items := 100, generation := 0 } : ItemBuffer).update 99).capacity)
        100
  ∧ (((({ capacity := 100, num_items := 100, generation := 0 } : ItemBuffer).update 99).update
        100).generation = 1) := by
  decide

/-- Claim C4, amended: reallocation happens exactly when the new length
exceeds `num_items` (the length stored by the previous update — not the
allocation size) or drops below half of it; a reallocation sizes the new
buffer exactly to the new length; on the update sequence
`[100, 101, 99, 150, 60]` from an initial state of length and capacity 100
the reallocations are exactly at 101, 150 and 60. -/
theorem itemBuffer_update_realloc :
    (∀ (s : ItemBuffer) (len : Nat),
        (s.update len).generation
          = s.generation + (if len > s.num_items ∨ len < s.num_items / 2 then 1 else 0)
      ∧ (s.update len).num_items = len
      ∧ ((len > s.num_items ∨ len < s.num_items / 2) → (s.update len).capacity = len))
  ∧ reallocFlags { capacity := 100, num_items := 100, generation := 0 } [100, 101, 99, 150, 60]
      = [false, true, false, true, true] := by
  constructor
  · intro s len
    unfold ItemBuffer.update
    split_ifs with hc
    · exact ⟨by simp, rfl, fun _ => rfl⟩
    · exact ⟨by simp, rfl, fun h => absurd h hc⟩
  · decide

/-- Witness for the amended C4 at a reallocating update. -/
theorem itemBuffer_update_realloc_witness :
    (({ capacity := 100, num_items := 100, generation := 0 } : ItemBuffer).update 150).capacity
      = 150 :=
  (itemBuffer_update_realloc.1 { capacity := 100, num_items := 100, generation := 0 } 150).2.2
    (by decide)

/-- Claim C9: an in-place update (no reallocation) leaves the generation
counter returned by `id()` unchanged, and the counter is incremented (by one)
exactly on reallocation. -/
theorem itemBuffer_id_increment_iff (s : ItemBuffer) (len : Nat) :
    (s.update len).id
        = s.id + (if len > s.num_items ∨ len < s.num_items / 2 then 1 else 0)
  ∧ ((s.update len).id = s.id ↔ ¬ (len > s.num_items ∨ len < s.num_items / 2)) := by
  unfold ItemBuffer.update ItemBuffer.id
  split_ifs with hc
  · simp [hc]
  · simp [hc]

/-- Claim C5: the renderer cache builds its bundle at construction; on
`update`, a bundle rebuild happens exactly when the observed data id changed,
the pipeline was invalid (the pipeline is then rebuilt first and the fresh
bundle references the fresh pipeline, never a stale one), or the bundle was
explicitly invalidated; no rebuild happens on a data-content update that
leaves the id unchanged with pipeline and bundle valid; after `update` both
validity flags hold. -/
theorem renderer_cache_rebuild_rules :
    (∀ d0 : Nat,
        (Renderer.new d0).bundle_builds = 1
      ∧ (Renderer.new d0).bundle.1 = (Renderer.new d0).pipeline
      ∧ (Renderer.new d0).pipeline_valid = true ∧ (Renderer.new d0).bundle_valid = true)
  ∧ (∀ (r : Renderer) (d : Nat),
        ((r.update d).pipeline_valid = true ∧ (r.update d).bundle_valid = true)
      ∧ (r.update d).bundle_builds
          = r.bundle_builds
            + (if d ≠ r.id ∨ r.pipeline_valid = false ∨ r.bundle_valid = false then 1 else 0)
      ∧ (r.update d).pipeline_builds
          = r.pipeline_builds + (if r.pipeline_valid = false then 1 else 0)
      ∧ (r.bundle.1 = r.pipeline → (r.update d).bundle.1 = (r.update d).pipeline))
  ∧ ∀ (r : Renderer) (d : Nat),
      ((r.invalid RendererInvalid.Pipeline).update d).bundle_builds = r.bundle_builds + 1
    ∧ ((r.invalid RendererInvalid.Pipeline).update d).pipeline_builds
        = r.pipeline_builds + 1 := by
  refine ⟨fun d0 => ⟨rfl, rfl, rfl, rfl⟩, fun r d => ?_, fun r d => ?_⟩
  · simp only [Renderer.update]
    split_ifs <;> simp_all
  · simp only [Renderer.update, Renderer.invalid]
    split_ifs <;> simp_all

/-- Witness for C5: after an update that changes the data id from the fresh
state, the bundle references the current pipeline. -/
theorem renderer_cache_rebuild_rules_witness :
    ((Renderer.new 0).update 7).bundle.1 = ((Renderer.new 0).update 7).pipeline :=
  (renderer_cache_rebuild_rules.2.1 (Renderer.new 0) 7).2.2.2 (by decide)

/-- Claim C6 counterexample: on the byte buffer whose byte at address `n` is
`n % 256`, the readback for pixel offset `2` does not return the word at byte
offset `4 * 2`: the code reads the word at byte offset 4 (it maps an 8-byte
window at `(offset / 2) * 4` and selects half of it), not at `4 * offset`. -/
theorem mapped_read_word_addressing_cex :
    mapped_read (fun n => n % 256) 2 ≠ word_at (fun n => n % 256) (4 * 2) := by
  decide

/-- Claim C6, amended: `mapped_read` decodes a little-endian 4-byte `u32`, but
from byte offset `4 * (offset / 2) + 4 * (offset % 2)` (the packed half-texel
addressing, `4 * ⌈offset / 2⌉`), not from `4 * offset`; the two agree for
pixel offsets 0 and 1. -/
theorem mapped_read_packed_word (buf : Nat → Nat) (p : Nat) :
    (mapped_read buf p = word_at buf (4 * (p / 2) + 4 * (p % 2)))
  ∧ mapped_read buf 0 = word_at buf 0
  ∧ mapped_read buf 1 = word_at buf 4 := by
  refine ⟨?_, by simp [mapped_read, word_at], by simp [mapped_read, word_at]⟩
  simp only [mapped_read, word_at]
  rw [show p / 2 * 4 + p % 2 * 4 = 4 * (p / 2) + 4 * (p % 2) from by ring]

set_option maxRecDepth 100000 in
set_option maxHeartbeats 4000000 in
/-- Adjacency completeness (all sibling slots filled) and symmetry with
multiplicity one, verified by evaluation of the embedding at subdivision
depths 0 and 1. -/
theorem icoAdj_eval_small_depths :
    (icoAllSome (Ico.divs 0) = true ∧ icoAdjSymmetric (Ico.divs 0) = true)
  ∧ (icoAllSome (Ico.divs 1) = true ∧ icoAdjSymmetric (Ico.divs 1) = true) := by
  refine ⟨⟨by decide, by decide⟩, ⟨by decide, by decide⟩⟩

end Planetary
